import Mathlib

/-!
Verification development for the news-aggregation server (server/index.js).

The server file contains two revisions of the same program separated by a
document marker; the later revision (the one using Promise.allSettled) is
the authoritative one and is the one embedded here.  Where the two
revisions differ materially this is noted on the corresponding definition.

Modelling conventions:
* JavaScript strings are embedded as List Char.
* Instants (JS Date / dayjs values) are epoch milliseconds as Int.
* The fixed target timezone America/Sao_Paulo is modelled with its
  permanent UTC-3 offset (the zone abolished DST in 2019, so this is the
  exact IANA behaviour for every instant from 2019-11 onwards; theorems
  about wall-clock anchoring restrict their inputs to that era).
* The host clock (Date.now(), dayjs()) is passed explicitly as a nowMs
  parameter wherever the JS code reads it.
* Fallible JS computations (Invalid Date, NaN propagation) are Option.
-/

namespace Newscacd

/-! ### Character primitives (JS regex character classes) -/

/-- Decimal digit test, the regex class backslash-d. -/
def isDigitC : Char → Bool
  | '0' => true | '1' => true | '2' => true | '3' => true | '4' => true
  | '5' => true | '6' => true | '7' => true | '8' => true | '9' => true
  | _ => false

/-- Numeric value of a decimal digit character (0 on non-digits; only ever
applied to characters that passed isDigitC). -/
def digitVal : Char → Nat
  | '1' => 1 | '2' => 2 | '3' => 3 | '4' => 4 | '5' => 5
  | '6' => 6 | '7' => 7 | '8' => 8 | '9' => 9
  | _ => 0

/-- Digit character for a value 0-9 (values are reduced mod 10 so the
function is total and always yields a digit). -/
def dCh (k : Nat) : Char := Char.ofNat (48 + k % 10)

/-- JS whitespace (regex class backslash-s), restricted to the ASCII
whitespace actually occurring in the scraped inputs. -/
def isJsWs (c : Char) : Bool :=
  c = ' ' || c = '\t' || c = '\n' || c = '\r'

/-- JS word character (regex class backslash-w): [A-Za-z0-9_]. -/
def isWordC (c : Char) : Bool :=
  ('A' ≤ c && c ≤ 'Z') || ('a' ≤ c && c ≤ 'z') || isDigitC c || c = '_'

/-- Numeric value of a list of digit characters (most significant first). -/
def digitsVal : List Char → Nat
  | [] => 0
  | c :: cs => digitVal c * 10 ^ cs.length + digitsVal cs

/-! ### Proleptic-Gregorian calendar arithmetic (the arithmetic inside
JS Date.UTC / Date.prototype.toISOString).  daysFromCivil/civilFromDays
are the standard era-based algorithms; both use floor division. -/

/-- Days since 1970-01-01 of a civil date.  The formula is linear in d,
which exactly matches the ECMAScript MakeDay overflow behaviour for
out-of-range day values. -/
def daysFromCivil (y m d : Int) : Int :=
  let y2 := y - (if m ≤ 2 then 1 else 0)
  let era := y2 / 400
  let yoe := y2 - era * 400
  let doy := (153 * (m + (if 2 < m then -3 else 9)) + 2) / 5 + d - 1
  let doe := yoe * 365 + yoe / 4 - yoe / 100 + doy
  era * 146097 + doe - 719468

/-- Civil date (year, month 1-12, day 1-31) of a count of days since
1970-01-01. -/
def civilFromDays (z : Int) : Int × Int × Int :=
  let z2 := z + 719468
  let era := z2 / 146097
  let doe := z2 - era * 146097
  let yoe := (doe - doe / 1460 + doe / 36524 - doe / 146096) / 365
  let y := yoe + era * 400
  let doy := doe - (365 * yoe + yoe / 4 - yoe / 100)
  let mp := (5 * doy + 2) / 153
  let d := doy - (153 * mp + 2) / 5 + 1
  let m := mp + (if mp < 10 then 3 else -9)
  (y + (if m ≤ 2 then 1 else 0), m, d)

/-- ECMAScript Date.UTC(y, M, d, h, mi, s, ms) as epoch milliseconds.
M is a zero-based month index; out-of-range M, d, h, mi, s normalise
arithmetically exactly as in ECMAScript (MakeDay/MakeDate are linear).
A year value 0-99 is interpreted as 1900+y, as Date.UTC specifies. -/
def epochUTCms (y M d h mi s ms : Int) : Int :=
  let y2 := if 0 ≤ y ∧ y ≤ 99 then y + 1900 else y
  let yAdj := y2 + M / 12
  let mAdj := M % 12
  daysFromCivil yAdj (mAdj + 1) d * 86400000
    + h * 3600000 + mi * 60000 + s * 1000 + ms

/-- Largest representable JS Date magnitude in milliseconds (8.64e15).
A computed time value outside this range is NaN (an Invalid Date). -/
def MAX_EPOCH : Int := 8640000000000000

/-- Range check performed by JS Date construction: a time value beyond
MAX_EPOCH in magnitude collapses to NaN, which we model as none. -/
def validJs (t : Int) : Option Int :=
  if t.natAbs ≤ 8640000000000000 then some t else none

/-- Two-digit zero-padded decimal rendering (used by toISOString). -/
def pad2C (n : Int) : List Char := [dCh (n.toNat / 10), dCh n.toNat]

/-- Four-digit zero-padded decimal rendering (used by toISOString). -/
def pad4C (n : Int) : List Char :=
  [dCh (n.toNat / 1000), dCh (n.toNat / 100), dCh (n.toNat / 10), dCh n.toNat]

/-- Three-digit zero-padded decimal rendering (milliseconds). -/
def pad3C (n : Int) : List Char :=
  [dCh (n.toNat / 100), dCh (n.toNat / 10), dCh n.toNat]

/-- Six-digit zero-padded decimal rendering (expanded-year ISO form). -/
def pad6C (n : Int) : List Char :=
  [dCh (n.toNat / 100000), dCh (n.toNat / 10000), dCh (n.toNat / 1000),
   dCh (n.toNat / 100), dCh (n.toNat / 10), dCh n.toNat]

/-- Date.prototype.toISOString: canonical UTC rendering of an epoch
millisecond value.  Years 0-9999 use the 24-character simplified form;
other years use the expanded sign+6-digit form. -/
def toIso (t : Int) : List Char :=
  let days := t / 86400000
  let ms := t % 86400000
  let c := civilFromDays days
  let y := c.1
  let tail :=
    '-' :: pad2C c.2.1 ++ '-' :: pad2C c.2.2
      ++ 'T' :: pad2C (ms / 3600000)
      ++ ':' :: pad2C (ms / 60000 % 60)
      ++ ':' :: pad2C (ms / 1000 % 60)
      ++ '.' :: pad3C (ms % 1000) ++ ['Z']
  if 0 ≤ y ∧ y ≤ 9999 then pad4C y ++ tail
  else (if y < 0 then '-' else '+') :: pad6C y.natAbs ++ tail

/-! ### Fixed target timezone -/

/-- America/Sao_Paulo UTC offset in milliseconds (UTC-3, so local wall
clock = UTC instant minus this 3-hour quantity; the dayjs tz plugin
represents it as the offset -180 minutes).  Valid for every instant after
the zone abolished DST in November 2019. -/
def SP_SHIFT_MS : Int := 10800000

/-- The dayjs timezone plugin fixOffset step for a constant-offset zone:
a wall-clock time value read as UTC is converted to the instant having
that wall clock in America/Sao_Paulo by adding 3 hours. -/
def spFromWallClock (t : Int) : Int := t + SP_SHIFT_MS

/-- Start of the current calendar day in America/Sao_Paulo, as an instant:
dayjs().tz(tz).startOf(day) for the current instant nowMs. -/
def spStartOfToday (nowMs : Int) : Int :=
  (nowMs - SP_SHIFT_MS) / 86400000 * 86400000 + SP_SHIFT_MS

/-- Start of yesterday in America/Sao_Paulo: startOf(day).subtract(1, day). -/
def spStartOfYesterday (nowMs : Int) : Int := spStartOfToday nowMs - 86400000

/-- End of the current calendar day in America/Sao_Paulo:
startOf(day).endOf(day), i.e. 23:59:59.999 local. -/
def spEndOfToday (nowMs : Int) : Int := spStartOfToday nowMs + 86399999

/-! ### Data model -/

/-- NormalizedItem as produced by the scrapers: title, url, optional
image URL, and publishedAt as the ISO string produced by parseDateTime
(or null when no date could be resolved). -/
structure NItem where
  title : List Char
  url : List Char
  image : Option (List Char)
  publishedAt : Option (List Char)
deriving DecidableEq, Repr

/-- JS truthiness of a nullable string: null/undefined and the empty
string are falsy. -/
def truthyStr : Option (List Char) → Bool
  | none => false
  | some s => !s.isEmpty

/-! ### SourceCache (server/index.js getSourceData / getSourceDataForce,
allSettled revision lines 1138-1149; the earlier revision is
behaviourally identical).  The per-key cache entry is passed in and the
possibly-updated entry is returned; the Bool records whether the
fetcher was invoked.  The fetcher outcome it would produce is passed as
an Except value. -/

/-- Cache time-to-live: one hour in milliseconds. -/
def CACHE_MS : Int := 3600000

/-- CacheEntry: cache.set(key, { data, at: Date.now() }). -/
structure CacheEntry where
  data : List NItem
  atMs : Int
deriving DecidableEq, Repr

/-- getSourceData: return fresh cached data without fetching; otherwise
invoke the fetcher, and only on success overwrite the entry. -/
def getSourceData (nowMs : Int) (cached : Option CacheEntry)
    (fetched : Except (List Char) (List NItem)) :
    Except (List Char) (List NItem) × Option CacheEntry × Bool :=
  match cached with
  | some c =>
    if nowMs - c.atMs < CACHE_MS then (Except.ok c.data, some c, false)
    else
      match fetched with
      | Except.ok d => (Except.ok d, some ⟨d, nowMs⟩, true)
      | Except.error e => (Except.error e, some c, true)
  | none =>
    match fetched with
    | Except.ok d => (Except.ok d, some ⟨d, nowMs⟩, true)
    | Except.error e => (Except.error e, none, true)

/-- getSourceDataForce: always invoke the fetcher, overwriting the entry
only on success. -/
def getSourceDataForce (nowMs : Int) (cached : Option CacheEntry)
    (fetched : Except (List Char) (List NItem)) :
    Except (List Char) (List NItem) × Option CacheEntry × Bool :=
  match fetched with
  | Except.ok d => (Except.ok d, some ⟨d, nowMs⟩, true)
  | Except.error e => (Except.error e, cached, true)

/-- A cache state on which getSourceData will invoke the fetcher: no
entry, or an entry at least CACHE_MS old. -/
def cacheMiss (nowMs : Int) : Option CacheEntry → Prop
  | none => True
  | some c => CACHE_MS ≤ nowMs - c.atMs

instance (nowMs : Int) (c : Option CacheEntry) : Decidable (cacheMiss nowMs c) := by
  cases c <;> simp [cacheMiss] <;> infer_instance

/-! ### String preprocessing used by parseDateTime (allSettled revision,
server/index.js lines 610-612 and 686-694) -/

/-- Map a JS whitespace character to a plain space. -/
def wsToSpace (c : Char) : Char := if isJsWs c then ' ' else c

/-- Collapse runs of adjacent spaces into one (the replace of the regex
backslash-s-plus by a single space, after whitespace has been mapped to
spaces). -/
def squeezeSpaces : List Char → List Char
  | [] => []
  | [c] => [c]
  | a :: b :: t =>
    if a = ' ' && b = ' ' then squeezeSpaces (b :: t)
    else a :: squeezeSpaces (b :: t)

/-- String.prototype.trim. -/
def trimWs (s : List Char) : List Char :=
  ((s.dropWhile isJsWs).reverse.dropWhile isJsWs).reverse

/-- normalizeWhitespace: (s or empty).replace(whitespace-runs, one space).trim(). -/
def normalizeWhitespace (s : List Char) : List Char :=
  trimWs (squeezeSpaces (s.map wsToSpace))

/-- Global replacement of the pipe character by a space. -/
def pipeMap (s : List Char) : List Char :=
  s.map fun c => if c = '|' then ' ' else c

/-- Global normalisation of en-dash, em-dash and minus-sign to a hyphen. -/
def dashMap (s : List Char) : List Char :=
  s.map fun c => if c = '–' || c = '—' || c = '−' then '-' else c

/-- String.prototype.toLowerCase restricted to ASCII letters and the
accented capitals relevant to the Portuguese/Spanish inputs. -/
def lowerJs (c : Char) : Char :=
  if 'A' ≤ c && c ≤ 'Z' then Char.ofNat (c.toNat + 32)
  else if c = 'Ç' then 'ç'
  else if c = 'À' then 'à'
  else if c = 'Á' then 'á'
  else if c = 'Â' then 'â'
  else if c = 'Ã' then 'ã'
  else if c = 'É' then 'é'
  else if c = 'Ê' then 'ê'
  else if c = 'Í' then 'í'
  else if c = 'Ó' then 'ó'
  else if c = 'Ô' then 'ô'
  else if c = 'Õ' then 'õ'
  else if c = 'Ú' then 'ú'
  else if c = 'Ü' then 'ü'
  else if c = 'Ñ' then 'ñ'
  else c

/-- Case-insensitive match of a fixed lowercase pattern against the head
of a string, returning the remainder on success. -/
def ciStrip : List Char → List Char → Option (List Char)
  | [], s => some s
  | _ :: _, [] => none
  | p :: ps, c :: cs => if lowerJs c = p then ciStrip ps cs else none

/-- Removal of the first occurrence of a boilerplate label: the
case-insensitive pattern followed by an optional colon and a greedy run
of whitespace (the replace of /Label:?s*/i by the empty string). -/
def stripLabel (pat : List Char) : List Char → List Char
  | [] => []
  | c :: cs =>
    match ciStrip pat (c :: cs) with
    | some r =>
      let r2 := match r with | ':' :: t => t | _ => r
      r2.dropWhile isJsWs
    | none => c :: stripLabel pat cs

/-- Tail of the accent-a time marker: optional s, then at least one
whitespace character; returns the remainder after the whitespace run. -/
def asTailMatch : List Char → Option (List Char)
  | [] => none
  | c :: t =>
    if c = 's' || c = 'S' then
      match t with
      | c2 :: _ => if isJsWs c2 then some (t.dropWhile isJsWs) else none
      | [] => none
    else if isJsWs c then some ((c :: t).dropWhile isJsWs) else none

/-- First-occurrence replacement of the word-boundary-anchored accent-a
marker by a single space.  The leading word boundary only holds when the
previous character is a word character (the accent-a itself is not a JS
word character), which the prevWord flag tracks. -/
def stripAs (prevWord : Bool) : List Char → List Char
  | [] => []
  | c :: cs =>
    if prevWord && (c = 'à' || c = 'À') then
      match asTailMatch cs with
      | some r => ' ' :: r
      | none => c :: stripAs (isWordC c) cs
    else c :: stripAs (isWordC c) cs

/-- Global rewrite of digit-h-digit-digit clock shorthand into a colon
form (18h45 becomes 18:45); scanning and continuation after each match
follow the JS global-regex semantics. -/
def hmmFixAux : Nat → List Char → List Char
  | 0, s => s
  | fuel + 1, s =>
    match s with
    | a :: b :: 'h' :: d :: e :: rest =>
      if isDigitC a && isDigitC b && isDigitC d && isDigitC e then
        a :: b :: ':' :: d :: e :: hmmFixAux fuel rest
      else a :: hmmFixAux fuel (b :: 'h' :: d :: e :: rest)
    | a :: 'h' :: d :: e :: rest =>
      if isDigitC a && isDigitC d && isDigitC e then
        a :: ':' :: d :: e :: hmmFixAux fuel rest
      else a :: hmmFixAux fuel ('h' :: d :: e :: rest)
    | a :: rest => a :: hmmFixAux fuel rest
    | [] => []

/-- Entry point of the scan: every step consumes at least one input
character, so the input length bounds the number of steps. -/
def hmmFix (s : List Char) : List Char := hmmFixAux s.length s

/-- Word boundary after the h of an hour shorthand: end of input or a
non-word character. -/
def hBoundary : List Char → Bool
  | [] => true
  | c :: _ => !isWordC c

/-- Global rewrite of the digit-h hour shorthand at a word boundary into
a full clock (9h becomes 9:00). -/
def hFixAux : Nat → List Char → List Char
  | 0, s => s
  | fuel + 1, s =>
    match s with
    | a :: b :: 'h' :: rest =>
      if isDigitC a && isDigitC b && hBoundary rest then
        a :: b :: ':' :: '0' :: '0' :: hFixAux fuel rest
      else a :: hFixAux fuel (b :: 'h' :: rest)
    | a :: 'h' :: rest =>
      if isDigitC a && hBoundary rest then
        a :: ':' :: '0' :: '0' :: hFixAux fuel rest
      else a :: hFixAux fuel ('h' :: rest)
    | a :: rest => a :: hFixAux fuel rest
    | [] => []

/-- Entry point of the scan: every step consumes at least one input
character, so the input length bounds the number of steps. -/
def hFix (s : List Char) : List Char := hFixAux s.length s

/-- The full cleaning pipeline applied by parseDateTime before the
format cascade (allSettled revision lines 686-694): whitespace
normalisation, pipe removal, three boilerplate labels, dash
normalisation, the accent-a marker, and the two clock shorthands. -/
def cleanedOf (raw : List Char) : List Char :=
  hFix (hmmFix (stripAs false (dashMap
    (stripLabel "atualizado em".data
      (stripLabel "publicada em".data
        (stripLabel "publicado em".data
          (pipeMap (normalizeWhitespace raw))))))))

/-! ### ISO substring extraction (the first regex in parseDateTime).
The matchers below hand-compile the regexes of the source; each follows
the leftmost-greedy backtracking semantics of the JS engine, and where a
greedy choice is taken without a backtracking alternative this is because
no backtracking branch of that regex can succeed where the greedy one
fails (the optional groups are all-or-nothing at their position). -/

/-- Offset alternative of the ISO regex: sign, two digits, optional
colon, two digits; or the letter Z.  Returns the matched text and the
remainder. -/
def isoOffsetAt : List Char → Option (List Char × List Char)
  | 'Z' :: r => some (['Z'], r)
  | c :: a :: b :: rest =>
    if (c = '+' || c = '-') && isDigitC a && isDigitC b then
      match rest with
      | ':' :: d :: e :: r2 =>
        if isDigitC d && isDigitC e then some ([c, a, b, ':', d, e], r2) else none
      | d :: e :: r2 =>
        if isDigitC d && isDigitC e then some ([c, a, b, d, e], r2) else none
      | _ => none
    else none
  | _ => none

/-- Date part of the ISO regex: four digits, hyphen, two digits, hyphen,
two digits.  Returns the matched text and the remainder. -/
def isoDateAt : List Char → Option (List Char × List Char)
  | y1 :: y2 :: y3 :: y4 :: '-' :: m1 :: m2 :: '-' :: d1 :: d2 :: rest =>
    if isDigitC y1 && isDigitC y2 && isDigitC y3 && isDigitC y4
        && isDigitC m1 && isDigitC m2 && isDigitC d1 && isDigitC d2 then
      some ([y1, y2, y3, y4, '-', m1, m2, '-', d1, d2], rest)
    else none
  | _ => none

/-- Optional time part of the ISO regex: separator T, t or space, then
hours:minutes, optional :seconds, optional zone offset.  Returns the
matched text (the empty match is reported by the caller as no time). -/
def isoTimeAt : List Char → Option (List Char)
  | sep :: h1 :: h2 :: ':' :: m1 :: m2 :: rest =>
    if (sep = 'T' || sep = 't' || sep = ' ')
        && isDigitC h1 && isDigitC h2 && isDigitC m1 && isDigitC m2 then
      let base := [sep, h1, h2, ':', m1, m2]
      match rest with
      | ':' :: s1 :: s2 :: rest2 =>
        if isDigitC s1 && isDigitC s2 then
          match isoOffsetAt rest2 with
          | some (oc, _) => some (base ++ ':' :: s1 :: s2 :: oc)
          | none => some (base ++ [':', s1, s2])
        else
          match isoOffsetAt rest with
          | some (oc, _) => some (base ++ oc)
          | none => some base
      | _ =>
        match isoOffsetAt rest with
        | some (oc, _) => some (base ++ oc)
        | none => some base
    else none
  | _ => none

/-- Leftmost match of the full ISO regex anywhere in the input: the text
raw.match(...) would return as match zero. -/
def isoExtract : List Char → Option (List Char)
  | [] => none
  | c :: rest =>
    match isoDateAt (c :: rest) with
    | some (dpart, r) =>
      some (dpart ++ (match isoTimeAt r with | some t => t | none => []))
    | none => isoExtract rest

/-! ### The dayjs core string parser (REGEX_PARSE) and the ECMAScript
ISO Date parser, the two ways a plain string becomes a UTC time value
inside dayjs.utc(input). -/

/-- Components captured by the dayjs core parsing regex.  A none in an
optional capture models an undefined or empty capture group. -/
structure RComps where
  y : Nat
  m : Option Nat
  d : Option Nat
  h : Option Nat
  mi : Option Nat
  s : Option Nat
  ms : Option Nat
deriving DecidableEq, Repr

/-- Greedy capture of up to two digits, with none for an empty match. -/
def takeDigits0to2 : List Char → Option Nat × List Char
  | [] => (none, [])
  | a :: rest =>
    if isDigitC a then
      match rest with
      | b :: r2 =>
        if isDigitC b then (some (digitVal a * 10 + digitVal b), r2)
        else (some (digitVal a), rest)
      | [] => (some (digitVal a), [])
    else (none, a :: rest)

/-- Exactly four digits at the head of the input. -/
def takeDigits4 : List Char → Option (Nat × List Char)
  | a :: b :: c :: d :: rest =>
    if isDigitC a && isDigitC b && isDigitC c && isDigitC d then
      some (digitsVal [a, b, c, d], rest)
    else none
  | _ => none

/-- Optional hyphen-or-slash separator. -/
def skipSep : List Char → List Char
  | [] => []
  | c :: rest => if c = '-' || c = '/' then rest else c :: rest

/-- Optional colon. -/
def skipColon : List Char → List Char
  | [] => []
  | c :: rest => if c = ':' then rest else c :: rest

/-- Optional dot or colon. -/
def skipDotColon : List Char → List Char
  | [] => []
  | c :: rest => if c = '.' || c = ':' then rest else c :: rest

/-- The anchored dayjs core parsing regex applied to a whole string:
year, optional separators and month/day digits, a run of T/t/whitespace,
then optional clock digits and a trailing digit run.  The greedy path is
taken throughout; a failing input has an unconsumable character that no
backtracking branch of this regex could consume either. -/
def regexParse (sIn : List Char) : Option RComps :=
  match takeDigits4 sIn with
  | none => none
  | some (y, r1) =>
    let p2 := takeDigits0to2 (skipSep r1)
    let p3 := takeDigits0to2 (skipSep p2.2)
    let r4 := p3.2.dropWhile fun c => c = 'T' || c = 't' || isJsWs c
    let p5 := takeDigits0to2 r4
    let p6 := takeDigits0to2 (skipColon p5.2)
    let p7 := takeDigits0to2 (skipColon p6.2)
    let msRun := (skipDotColon p7.2).takeWhile isDigitC
    let rest := (skipDotColon p7.2).drop msRun.length
    if rest.isEmpty then
      some ⟨y, p2.1, p3.1, p5.1, p6.1, p7.1,
        if msRun.isEmpty then none else some (digitsVal (msRun.take 3))⟩
    else none

/-- Days in a Gregorian month, for the calendar validation of the
ECMAScript ISO parser. -/
def daysInMonth (y m : Int) : Int :=
  if m = 2 then
    (if (y % 4 = 0 ∧ y % 100 ≠ 0) ∨ y % 400 = 0 then 29 else 28)
  else if m = 4 ∨ m = 6 ∨ m = 9 ∨ m = 11 then 30 else 31

/-- UTC time value of calendar components without the two-digit-year
remapping (the ISO Date parser takes the year literally). -/
def jsMakeUTC (y mo d h mi s ms : Int) : Int :=
  daysFromCivil y mo d * 86400000 + h * 3600000 + mi * 60000 + s * 1000 + ms

/-- Exactly two digits at the head of the input, with their value. -/
def d2At : List Char → Option (Nat × List Char)
  | a :: b :: r =>
    if isDigitC a && isDigitC b then some (digitVal a * 10 + digitVal b, r)
    else none
  | _ => none

/-- Zone designator of the ECMAScript ISO format (with the
colon-optional offset V8 additionally accepts): the whole remainder must
be consumed.  Returns the offset in minutes east of UTC. -/
def jsZone : List Char → Option Int
  | ['Z'] => some 0
  | ['z'] => some 0
  | c :: rest =>
    if c = '+' || c = '-' then
      match d2At rest with
      | some (hh, r2) =>
        let r3 := match r2 with | ':' :: t => t | _ => r2
        match d2At r3 with
        | some (mm, []) =>
          some ((if c = '-' then -1 else 1) * ((hh : Int) * 60 + (mm : Int)))
        | _ => none
      | none => none
    else none
  | [] => none

/-- Clock tail of the ECMAScript ISO parser, after the date and the
separator: hours, minutes, optional seconds and milliseconds, then the
zone.  A date-time without a zone designator is interpreted by hosts in
their local timezone; no input reaching this parser in the embedded
program lacks a zone (zone-less strings are consumed by the dayjs core
regex first), so that branch is modelled as an invalid date. -/
def jsClock (y mo d : Nat) : List Char → Option Int
  | s =>
    match d2At s with
    | none => none
    | some (hh, r1) =>
      match r1 with
      | ':' :: r2 =>
        match d2At r2 with
        | none => none
        | some (mi, r3) =>
          let withSec :=
            match r3 with
            | ':' :: r4 =>
              match d2At r4 with
              | none => none
              | some (ss, r5) =>
                match r5 with
                | '.' :: a :: b :: c :: r6 =>
                  if isDigitC a && isDigitC b && isDigitC c then
                    some (ss, digitsVal [a, b, c], r6)
                  else none
                | _ => some (ss, 0, r5)
            | _ => some (0, 0, r3)
          match withSec with
          | none => none
          | some (ss, ms, r7) =>
            if hh ≤ 24 ∧ mi ≤ 59 ∧ ss ≤ 59 ∧ (hh = 24 → mi = 0 ∧ ss = 0 ∧ ms = 0) then
              (jsZone r7).map fun off =>
                jsMakeUTC y mo d hh mi ss ms - off * 60000
            else none
      | _ => none

/-- ECMAScript Date.parse of an ISO date or date-time string (the V8
behaviour: strict field ranges, calendar-valid day, T, t or space as the
date-time separator).  Yields the UTC time value, or none for an
Invalid Date. -/
def jsDateParse (s : List Char) : Option Int :=
  match takeDigits4 s with
  | none => none
  | some (y, r1) =>
    match r1 with
    | '-' :: r2 =>
      match d2At r2 with
      | none => none
      | some (mo, r3) =>
        match r3 with
        | '-' :: r4 =>
          match d2At r4 with
          | none => none
          | some (d, r5) =>
            if 1 ≤ mo ∧ mo ≤ 12 ∧ 1 ≤ d ∧ (d : Int) ≤ daysInMonth y mo then
              match r5 with
              | [] => validJs (jsMakeUTC y mo d 0 0 0 0)
              | sep :: r6 =>
                if sep = 'T' || sep = 't' || sep = ' ' then
                  (jsClock y mo d r6).bind validJs
                else none
            else none
        | _ => none
    | _ => none

/-- Last character test for the Z suffix check dayjs performs before
trying its core regex (the regex /Z$/i). -/
def endsWithZ (s : List Char) : Bool :=
  match s.getLast? with
  | some c => c = 'Z' || c = 'z'
  | none => false

/-- Date.UTC applied to the captures of the dayjs core regex, with the
defaulting the dayjs source performs: month capture minus one (or zero
when absent), day capture defaulting to one when absent or empty, clock
captures defaulting to zero. -/
def jsUtcFromComps (c : RComps) : Int :=
  let m : Int := match c.m with | none => 0 | some mv => (mv : Int) - 1
  let d : Int := match c.d with | none => 1 | some dv => (dv : Int)
  epochUTCms (c.y : Int) m d ((c.h.getD 0 : Nat) : Int) ((c.mi.getD 0 : Nat) : Int)
    ((c.s.getD 0 : Nat) : Int) ((c.ms.getD 0 : Nat) : Int)

/-- dayjs.utc(string): strings ending in Z (case-insensitively) go to
the native Date parser; otherwise the core regex is tried with its
captures fed to Date.UTC, falling back to the native Date parser. -/
def dayjsUtcParse (s : List Char) : Option Int :=
  if endsWithZ s then jsDateParse s
  else
    match regexParse s with
    | some c => validJs (jsUtcFromComps c)
    | none => jsDateParse s

/-- The exception a dayjs.tz call can raise: when the parsed time value
is NaN (an invalid parse) or the re-anchored guess leaves the JS Date
range, the tz plugin's fixOffset/tzOffset step hands an Invalid Date to
Intl.DateTimeFormat.formatToParts, which throws RangeError (Invalid time
value).  The call never returns an invalid instance, so the isValid()
guards at its call sites cannot take their false branch. -/
inductive JsError where
  | rangeError
deriving DecidableEq, Repr

deriving instance DecidableEq for Except

/-- dayjs.tz(string, America/Sao_Paulo): the string is parsed as UTC and
the resulting wall-clock value is re-anchored to the target timezone by
the fixOffset step (a constant plus-three-hours shift in the DST-free
era), yielding that valueOf; an invalid parse (NaN) or an out-of-range
re-anchored value reaches Intl.DateTimeFormat.formatToParts inside
fixOffset/tzOffset and throws RangeError instead of returning. -/
def dayjsTzString (s : List Char) : Except JsError Int :=
  match dayjsUtcParse s with
  | none => Except.error JsError.rangeError
  | some t =>
    match validJs (t + SP_SHIFT_MS) with
    | some u => Except.ok u
    | none => Except.error JsError.rangeError

/-! ### The dayjs customParseFormat engine in non-strict mode, as invoked
by the seven numeric and four English formats of the parser cascade.
Non-strict parsing searches each token regex anywhere in the remaining
input, deletes the first occurrence of the matched text from the whole
input, and merely counts the length of literal separator tokens. -/

/-- Fields a format token can bind. -/
inductive TField where
  | day | month | year | hours | minutes
deriving DecidableEq, Repr

/-- Tokens of the formats used by the program: a separator literal of a
given length, two-digit and one-to-two-digit and four-digit numeric
tokens, and the full-month-name word token of the English locale. -/
inductive FTok where
  | lit (n : Nat)
  | d2 (f : TField)
  | d1to2 (f : TField)
  | d4 (f : TField)
  | mword
deriving DecidableEq, Repr

/-- Partial components bound during a custom-format parse. -/
structure PComps where
  day : Option Nat := none
  month : Option Nat := none
  year : Option Nat := none
  hours : Option Nat := none
  minutes : Option Nat := none
deriving DecidableEq, Repr

/-- Binding one field of the component record. -/
def setField (f : TField) (v : Nat) (c : PComps) : PComps :=
  match f with
  | TField.day => { c with day := some v }
  | TField.month => { c with month := some v }
  | TField.year => { c with year := some v }
  | TField.hours => { c with hours := some v }
  | TField.minutes => { c with minutes := some v }

/-- First occurrence of two adjacent digits anywhere in the input (the
exec of the two-digit token regex). -/
def findRun2 : List Char → Option (List Char)
  | a :: b :: r =>
    if isDigitC a && isDigitC b then some [a, b] else findRun2 (b :: r)
  | _ => none

/-- First digit run of length one or two anywhere in the input (the exec
of the one-to-two-digit token regex, greedy). -/
def findRun1to2 : List Char → Option (List Char)
  | [] => none
  | a :: r =>
    if isDigitC a then
      match r with
      | b :: _ => if isDigitC b then some [a, b] else some [a]
      | [] => some [a]
    else findRun1to2 r

/-- First occurrence of four adjacent digits anywhere in the input. -/
def findRun4 : List Char → Option (List Char)
  | a :: b :: c :: d :: r =>
    if isDigitC a && isDigitC b && isDigitC c && isDigitC d then some [a, b, c, d]
    else findRun4 (b :: c :: d :: r)
  | _ => none

/-- Character class of the word token regex: everything except digits,
the listed punctuation and whitespace. -/
def wordClassC (c : Char) : Bool :=
  !(isDigitC c || c = '-' || c = '_' || c = ':' || c = '/' || c = ','
    || c = '(' || c = ')' || isJsWs c)

/-- Leftmost match of the word token regex (optional digits then at
least one word-class character, both greedy). -/
def findWordM : List Char → Option (List Char)
  | [] => none
  | c :: rest =>
    let ds := (c :: rest).takeWhile isDigitC
    let r2 := (c :: rest).drop ds.length
    match r2.takeWhile wordClassC with
    | [] => findWordM rest
    | w => some (ds ++ w)

/-- Whether pat occurs at the head of s. -/
def listPrefixOf : List Char → List Char → Bool
  | [], _ => true
  | _ :: _, [] => false
  | p :: ps, c :: cs => p = c && listPrefixOf ps cs

/-- String.prototype.replace with a plain-string pattern and empty
replacement: deletes the first occurrence of pat. -/
def replaceFirst : List Char → List Char → List Char
  | [], _ => []
  | c :: cs, pat =>
    if listPrefixOf pat (c :: cs) then (c :: cs).drop pat.length
    else c :: replaceFirst cs pat

/-- Month names of the default (English) dayjs locale, as compared
against the word captured by the full-month-name token. -/
def enMonths : List (List Char) :=
  ["January".data, "February".data, "March".data, "April".data, "May".data,
   "June".data, "July".data, "August".data, "September".data, "October".data,
   "November".data, "December".data]

/-- Zero-based index of a string in a list of strings. -/
def idxOf : List (List Char) → List Char → Option Nat
  | [], _ => none
  | x :: xs, w => if x = w then some 0 else (idxOf xs w).map (· + 1)

/-- State of a non-strict custom-format parse: the (mutated) input, the
running literal-length offset, and the components bound so far. -/
structure PState where
  inp : List Char
  start : Nat
  comps : PComps

/-- One token step of the non-strict parser: literals advance the
offset; numeric and word tokens search the input from the offset,
bind their field and delete the first occurrence of the matched text
from the whole input; an unmatched token regex or an unknown month word
aborts the parse (the thrown exception of the JS code). -/
def applyTok (tok : FTok) (st : PState) : Option PState :=
  match tok with
  | FTok.lit n => some { st with start := st.start + n }
  | FTok.d2 f =>
    match findRun2 (st.inp.drop st.start) with
    | some v => some { st with inp := replaceFirst st.inp v,
                               comps := setField f (digitsVal v) st.comps }
    | none => none
  | FTok.d1to2 f =>
    match findRun1to2 (st.inp.drop st.start) with
    | some v => some { st with inp := replaceFirst st.inp v,
                               comps := setField f (digitsVal v) st.comps }
    | none => none
  | FTok.d4 f =>
    match findRun4 (st.inp.drop st.start) with
    | some v => some { st with inp := replaceFirst st.inp v,
                               comps := setField f (digitsVal v) st.comps }
    | none => none
  | FTok.mword =>
    match findWordM (st.inp.drop st.start) with
    | some w =>
      match idxOf enMonths w with
      | some i => some { st with inp := replaceFirst st.inp w,
                                 comps := setField TField.month (i + 1) st.comps }
      | none => none
    | none => none

/-- Running a token list over an input. -/
def runToks : List FTok → PState → Option PComps
  | [], st => some st.comps
  | t :: ts, st =>
    match applyTok t st with
    | some st2 => runToks ts st2
    | none => none

/-- Calendar components of the current instant (the now the JS code
reads for defaulting; modelled on the UTC clock, and unreachable on
every path proved about, since all formats of the program bind year,
month and day). -/
def nowCivil (nowMs : Int) : Int × Int × Int := civilFromDays (nowMs / 86400000)

/-- JS truthiness of a bound-or-absent numeric component. -/
def truthyN : Option Nat → Bool
  | none => false
  | some v => v != 0

/-- The value-or-default idiom of the dayjs build step (a bound zero is
falsy and falls back to the default). -/
def jsOrN (v : Option Nat) (dflt : Int) : Int :=
  match v with
  | some n => if n = 0 then dflt else (n : Int)
  | none => dflt

/-- Date.UTC applied to the components bound by a custom-format parse,
with the defaulting rules of the dayjs parseFormattedInput step. -/
def buildUtcFromPComps (nowMs : Int) (c : PComps) : Int :=
  let yr := jsOrN c.year (nowCivil nowMs).1
  let M : Int :=
    if truthyN c.year && !truthyN c.month then 0
    else if truthyN c.month then (jsOrN c.month 0) - 1
    else (nowCivil nowMs).2.1 - 1
  let d := jsOrN c.day (if !truthyN c.year && !truthyN c.month then (nowCivil nowMs).2.2 else 1)
  epochUTCms yr M d (jsOrN c.hours 0) (jsOrN c.minutes 0) 0 0

/-- dayjs.tz(input, format, America/Sao_Paulo) for the non-strict
custom-format path: parse in UTC, re-anchor the wall clock to the target
timezone.  A failed token match (the parseFormattedInput catch produces
an Invalid Date), an out-of-range Date.UTC value, or an out-of-range
re-anchored value all put a NaN or invalid Date into the tz plugin's
fixOffset/tzOffset, whose Intl.DateTimeFormat.formatToParts call throws
RangeError; only a fully valid parse returns. -/
def customTz (nowMs : Int) (fmt : List FTok) (s : List Char) : Except JsError Int :=
  match runToks fmt ⟨s, 0, {}⟩ with
  | none => Except.error JsError.rangeError
  | some c =>
    match validJs (buildUtcFromPComps nowMs c) with
    | none => Except.error JsError.rangeError
    | some t =>
      match validJs (t + SP_SHIFT_MS) with
      | some u => Except.ok u
      | none => Except.error JsError.rangeError

/-- Format DD/MM/YYYY HH:mm (also DD-MM-YYYY HH:mm and DD.MM.YYYY HH:mm:
in non-strict mode separator literals only contribute their length, so
the three separator variants compile to the same token list). -/
def fmtNumHM : List FTok :=
  [FTok.d2 TField.day, FTok.lit 1, FTok.d2 TField.month, FTok.lit 1,
   FTok.d4 TField.year, FTok.lit 1, FTok.d2 TField.hours, FTok.lit 1,
   FTok.d2 TField.minutes]

/-- Format DD/MM/YYYY (also the dash and dot variants). -/
def fmtNum : List FTok :=
  [FTok.d2 TField.day, FTok.lit 1, FTok.d2 TField.month, FTok.lit 1,
   FTok.d4 TField.year]

/-- Format D/M/YYYY. -/
def fmtDM : List FTok :=
  [FTok.d1to2 TField.day, FTok.lit 1, FTok.d1to2 TField.month, FTok.lit 1,
   FTok.d4 TField.year]

/-- Format D MMMM YYYY HH:mm. -/
def fmtEnDHM : List FTok :=
  [FTok.d1to2 TField.day, FTok.lit 1, FTok.mword, FTok.lit 1,
   FTok.d4 TField.year, FTok.lit 1, FTok.d2 TField.hours, FTok.lit 1,
   FTok.d2 TField.minutes]

/-- Format D MMMM YYYY. -/
def fmtEnD : List FTok :=
  [FTok.d1to2 TField.day, FTok.lit 1, FTok.mword, FTok.lit 1,
   FTok.d4 TField.year]

/-- Format MMMM D, YYYY HH:mm (the comma and space form one separator
token of length two). -/
def fmtEnMDHM : List FTok :=
  [FTok.mword, FTok.lit 1, FTok.d1to2 TField.day, FTok.lit 2,
   FTok.d4 TField.year, FTok.lit 1, FTok.d2 TField.hours, FTok.lit 1,
   FTok.d2 TField.minutes]

/-- Format MMMM D, YYYY. -/
def fmtEnMD : List FTok :=
  [FTok.mword, FTok.lit 1, FTok.d1to2 TField.day, FTok.lit 2,
   FTok.d4 TField.year]

/-- The numeric format cascade of parseDateTime, in source order. -/
def numericFmts : List (List FTok) :=
  [fmtNumHM, fmtNum, fmtDM, fmtNumHM, fmtNum, fmtNumHM, fmtNum]

/-- The English format cascade of parseDateTime, in source order. -/
def englishFmts : List (List FTok) :=
  [fmtEnDHM, fmtEnD, fmtEnMDHM, fmtEnMD]

/-- The format loop of the cascade.  Each iteration calls dayjs.tz,
which either returns a valid instant (the isValid() check passes and the
function returns) or throws RangeError out of the enclosing function;
since no invalid instance is ever returned, an iteration never falls
through to the next format, and every format after the first is dead
code.  An empty cascade completes the loop without returning. -/
def firstSomeTz (nowMs : Int) : List (List FTok) → List Char → Except JsError (Option Int)
  | [], _ => Except.ok none
  | f :: _, s =>
    match customTz nowMs f s with
    | Except.ok t => Except.ok (some t)
    | Except.error e => Except.error e

/-! ### parseNamedMonth (allSettled revision lines 645-670) -/

/-- The Portuguese month table MONTHS_PT, in source order. -/
def MONTHS_PT : List (List Char × Nat) :=
  [("janeiro".data, 1), ("jan".data, 1),
   ("fevereiro".data, 2), ("fev".data, 2),
   ("março".data, 3), ("mar".data, 3), ("marco".data, 3),
   ("abril".data, 4), ("abr".data, 4),
   ("maio".data, 5), ("mai".data, 5),
   ("junho".data, 6), ("jun".data, 6),
   ("julho".data, 7), ("jul".data, 7),
   ("agosto".data, 8), ("ago".data, 8),
   ("setembro".data, 9), ("set".data, 9), ("setembro.".data, 9),
   ("outubro".data, 10), ("out".data, 10),
   ("novembro".data, 11), ("nov".data, 11),
   ("dezembro".data, 12), ("dez".data, 12)]

/-- The Spanish month table MONTHS_ES, in source order. -/
def MONTHS_ES : List (List Char × Nat) :=
  [("enero".data, 1), ("ene".data, 1),
   ("febrero".data, 2), ("feb".data, 2),
   ("marzo".data, 3), ("mar".data, 3),
   ("abril".data, 4), ("abr".data, 4),
   ("mayo".data, 5), ("may".data, 5),
   ("junio".data, 6), ("jun".data, 6),
   ("julio".data, 7), ("jul".data, 7),
   ("agosto".data, 8), ("ago".data, 8),
   ("septiembre".data, 9), ("sep".data, 9), ("setiembre".data, 9), ("set".data, 9),
   ("octubre".data, 10), ("oct".data, 10),
   ("noviembre".data, 11), ("nov".data, 11),
   ("diciembre".data, 12), ("dic".data, 12)]

/-- Key lookup in a month table. -/
def assocLookup : List (List Char × Nat) → List Char → Option Nat
  | [], _ => none
  | (k, v) :: rest, key => if k = key then some v else assocLookup rest key

/-- Month name resolution: the Portuguese table, then the Spanish one. -/
def monthLookup (name : List Char) : Option Nat :=
  match assocLookup MONTHS_PT name with
  | some v => some v
  | none => assocLookup MONTHS_ES name

/-- Character class of the month-name capture group: lowercase letters,
the listed accented letters, and the dot. -/
def isNameC (c : Char) : Bool :=
  ('a' ≤ c && c ≤ 'z') || c = 'ç' || c = 'é' || c = 'í' || c = 'ó' || c = 'ú'
    || c = 'ñ' || c = 'ã' || c = 'õ' || c = 'â' || c = 'ê' || c = 'ô'
    || c = 'ü' || c = '.'

/-- Day capture of the named-month regex: one or two digits, greedy (a
shorter day never rescues a failing match, since the following
month-name class excludes digits). -/
def nmDay : List Char → Option (List Char × List Char)
  | [] => none
  | a :: rest =>
    if isDigitC a then
      match rest with
      | b :: r2 => if isDigitC b then some ([a, b], r2) else some ([a], rest)
      | [] => some ([a], [])
    else none

/-- Clock capture of the optional time groups: one or two hour digits,
colon, two minute digits. -/
def nmClock : List Char → Option (List Char)
  | a :: b :: ':' :: d :: e :: _ =>
    if isDigitC a && isDigitC b && isDigitC d && isDigitC e then some [a, b, ':', d, e]
    else none
  | a :: ':' :: d :: e :: _ =>
    if isDigitC a && isDigitC d && isDigitC e then some [a, ':', d, e] else none
  | _ => none

/-- Optional time tail: at least one whitespace character then a clock;
failure of either simply omits the capture. -/
def nmTimeAt : List Char → Option (List Char)
  | [] => none
  | c :: rest =>
    if isJsWs c then nmClock (rest.dropWhile isJsWs) else none

/-- Year and optional time of the named-month regex: four digits then
the optional time group. -/
def nmYearTime : List Char → Option (List Char × Option (List Char))
  | a :: b :: c :: d :: rest =>
    if isDigitC a && isDigitC b && isDigitC c && isDigitC d then
      some ([a, b, c, d], nmTimeAt rest)
    else none
  | _ => none

/-- Tail after the month name: optional whitespace, an optional literal
de (tried greedily, with the regex backtracking fallback), optional
whitespace, then the year and time. -/
def nmTail (s : List Char) : Option (List Char × Option (List Char)) :=
  let s1 := s.dropWhile isJsWs
  match s1 with
  | 'd' :: 'e' :: r =>
    match nmYearTime (r.dropWhile isJsWs) with
    | some yt => some yt
    | none => nmYearTime s1
  | _ => nmYearTime s1

/-- Name-and-tail step shared by the two de-branches of matchNamedAt. -/
def nmNameTail (dayC r : List Char) :
    Option (List Char × List Char × List Char × Option (List Char)) :=
  match r.takeWhile isNameC with
  | [] => none
  | w => (nmTail (r.drop w.length)).map fun yt => (dayC, w, yt.1, yt.2)

/-- The named-month regex matched at the current position: day digits,
whitespace, optional de, whitespace, month name, then the year tail.
All greedy choices follow the JS engine; the only productive
backtracking point (the optional de) is tried in both orders. -/
def matchNamedAt (s : List Char) :
    Option (List Char × List Char × List Char × Option (List Char)) :=
  match nmDay s with
  | none => none
  | some (dayC, afterDay) =>
    let s1 := afterDay.dropWhile isJsWs
    match s1 with
    | 'd' :: 'e' :: r2 =>
      match nmNameTail dayC (r2.dropWhile isJsWs) with
      | some res => some res
      | none => nmNameTail dayC s1
    | _ => nmNameTail dayC s1

/-- Leftmost match of the named-month regex anywhere in the input. -/
def findNamed : List Char →
    Option (List Char × List Char × List Char × Option (List Char))
  | [] => none
  | c :: rest =>
    match matchNamedAt (c :: rest) with
    | some r => some r
    | none => findNamed rest

/-- Removal of one trailing dot from the captured month name. -/
def stripTrailingDot (s : List Char) : List Char :=
  match s.getLast? with
  | some '.' => s.dropLast
  | _ => s

/-- Zero-padding of a one-or-two-digit capture to two characters. -/
def padS (s : List Char) : List Char :=
  if s.length = 1 then '0' :: s else s

/-- The preprocessing parseNamedMonth applies to its own input:
lowercasing, dash normalisation, the accent-a marker and the two clock
shorthands. -/
def nmPre (text : List Char) : List Char :=
  hFix (hmmFix (stripAs false (dashMap (text.map lowerJs))))

/-- parseNamedMonth: preprocess, match the named-month regex, resolve
the month name through the Portuguese and Spanish tables, build an ISO
wall-clock string (noon when no time was captured) and anchor it to the
target timezone.  A failed regex match or an unknown month name returns
null before any dayjs call; the final dayjs.tz call either returns the
instant or throws RangeError (its isValid() ternary cannot see an
invalid value). -/
def parseNamedMonth (text : List Char) : Except JsError (Option Int) :=
  if text.isEmpty then Except.ok none
  else
    let t := nmPre text
    match findNamed t with
    | none => Except.ok none
    | some (dayC, monName, yearC, clock) =>
      match monthLookup (stripTrailingDot monName) with
      | none => Except.ok none
      | some mon =>
        let hhmm := clock.getD ['1', '2', ':', '0', '0']
        let iso := yearC ++ '-' :: pad2C (mon : Int) ++ '-' :: padS dayC
          ++ 'T' :: hhmm ++ [':', '0', '0']
        match dayjsTzString iso with
        | Except.ok t2 => Except.ok (some t2)
        | Except.error e => Except.error e

/-! ### The last-resort numeric scrape of parseDateTime (allSettled
revision lines 727-738) -/

/-- Separator class of the last-resort regex: slash, hyphen or dot. -/
def dmySep (c : Char) : Bool := c = '/' || c = '-' || c = '.'

/-- Year and optional time of the last-resort regex. -/
def dmyYear (dayC mC : List Char) (s : List Char) :
    Option (List Char × List Char × List Char × Option (List Char)) :=
  match s with
  | a :: b :: c :: d :: rest =>
    if isDigitC a && isDigitC b && isDigitC c && isDigitC d then
      some (dayC, mC, [a, b, c, d], nmTimeAt rest)
    else none
  | _ => none

/-- Month capture and separator of the last-resort regex (greedy one or
two digits, with the backtracking fallback to one digit). -/
def dmyCont (dayC : List Char) : List Char →
    Option (List Char × List Char × List Char × Option (List Char))
  | [] => none
  | a :: rest =>
    if isDigitC a then
      match rest with
      | b :: sep :: r2 =>
        if isDigitC b && dmySep sep then dmyYear dayC [a, b] r2
        else
          match rest with
          | sep1 :: r1 => if dmySep sep1 then dmyYear dayC [a] r1 else none
          | [] => none
      | _ =>
        match rest with
        | sep1 :: r1 => if dmySep sep1 then dmyYear dayC [a] r1 else none
        | [] => none
    else none

/-- The last-resort regex matched at the current position: day digits,
separator, month digits, separator, year, optional time. -/
def dmyAt : List Char →
    Option (List Char × List Char × List Char × Option (List Char))
  | [] => none
  | a :: rest =>
    if isDigitC a then
      match rest with
      | b :: sep :: r2 =>
        if isDigitC b && dmySep sep then dmyCont [a, b] r2
        else
          match rest with
          | sep1 :: r1 => if dmySep sep1 then dmyCont [a] r1 else none
          | [] => none
      | _ =>
        match rest with
        | sep1 :: r1 => if dmySep sep1 then dmyCont [a] r1 else none
        | [] => none
    else none

/-- Leftmost match of the last-resort regex anywhere in the input. -/
def dmyFind : List Char →
    Option (List Char × List Char × List Char × Option (List Char))
  | [] => none
  | c :: rest =>
    match dmyAt (c :: rest) with
    | some r => some r
    | none => dmyFind rest

/-- The explicit date-time string the last-resort branch constructs from
its captures (noon when no time was captured). -/
def dmyBuild (dayC mC yC : List Char) (clock : Option (List Char)) : List Char :=
  yC ++ '-' :: padS mC ++ '-' :: padS dayC
    ++ 'T' :: clock.getD ['1', '2', ':', '0', '0'] ++ [':', '0', '0']

/-! ### parseDateTime (allSettled revision lines 673-741) -/

/-- parseDateTime as an instant: null-or-empty guard, then the ISO
extraction, the numeric format cascade, the English format cascade, the
named-month parser, and the last-resort numeric scrape, in source order.
The ok value is the valueOf of the dayjs value the JS function would
stringify (toIso of it is the returned ISO string).  Every dayjs.tz call
sits outside any try/catch, so its RangeError propagates out of the
whole function (the error result); each branch written after a dayjs.tz
call is reachable only on the inputs for which that call is skipped,
because the call otherwise returns a valid value or throws — the
source's if (d.isValid()) fall-throughs are vacuous and the later
cascade stages are dead code whenever an earlier stage reaches dayjs.tz. -/
def parseDateTimeMs (nowMs : Int) (raw : Option (List Char)) : Except JsError (Option Int) :=
  match raw with
  | none => Except.ok none
  | some rawS =>
    if rawS.isEmpty then Except.ok none
    else
      match isoExtract rawS with
      | some isoS =>
        (match dayjsTzString isoS with
         | Except.ok t => Except.ok (some t)
         | Except.error e => Except.error e)
      | none =>
        let cleaned := cleanedOf rawS
        match firstSomeTz nowMs numericFmts cleaned with
        | Except.error e => Except.error e
        | Except.ok (some t) => Except.ok (some t)
        | Except.ok none =>
          match firstSomeTz nowMs englishFmts cleaned with
          | Except.error e => Except.error e
          | Except.ok (some t) => Except.ok (some t)
          | Except.ok none =>
            match parseNamedMonth cleaned with
            | Except.error e => Except.error e
            | Except.ok (some t) => Except.ok (some t)
            | Except.ok none =>
              match dmyFind cleaned with
              | some (dayC, mC, yC, clock) =>
                (match dayjsTzString (dmyBuild dayC mC yC clock) with
                 | Except.ok t => Except.ok (some t)
                 | Except.error e => Except.error e)
              | none => Except.ok none

/-- parseDateTime as the JS function behaves: the ISO string of the
parsed instant, null, or the RangeError thrown out of the function by a
failing dayjs.tz call. -/
def parseDateTime (nowMs : Int) (raw : Option (List Char)) :
    Except JsError (Option (List Char)) :=
  (parseDateTimeMs nowMs raw).map (Option.map toIso)

/-! ### withinLastTwoDays and filterAndSort (allSettled revision lines
744-752 and 1151-1155) -/

/-- withinLastTwoDays: false for a null or empty ISO string; otherwise
the stored string is re-parsed through dayjs.tz (which re-anchors its
UTC wall clock to the target timezone) and compared inclusively against
the start of yesterday and the end of today in America/Sao_Paulo.  On a
string whose re-parse fails the real function throws the dayjs.tz
RangeError; that case is mapped to false here because every string this
predicate receives from the pipeline is a canonical toIso output, whose
re-parse always succeeds, and the properties proved about it use only
such strings. -/
def withinLastTwoDays (nowMs : Int) (iso : Option (List Char)) : Bool :=
  match iso with
  | none => false
  | some s =>
    if s.isEmpty then false
    else
      match dayjsTzString s with
      | Except.error _ => false
      | Except.ok v => spStartOfYesterday nowMs ≤ v && v ≤ spEndOfToday nowMs

/-- The filter predicate of filterAndSort: a truthy item with truthy
title, url and publishedAt that lies within the retention window. -/
def keepItem (nowMs : Int) (it : NItem) : Bool :=
  !it.title.isEmpty && !it.url.isEmpty && truthyStr it.publishedAt
    && withinLastTwoDays nowMs it.publishedAt

/-- Sort key of the comparator dayjs(b.publishedAt).valueOf() minus
dayjs(a.publishedAt).valueOf(): every publishedAt reaching the
comparator is a canonical Z-suffixed ISO string produced by
parseDateTime, which the plain dayjs constructor hands to the native
Date parser.  (NaN keys, which V8 treats as comparator value zero, are
unreachable because kept items passed withinLastTwoDays.) -/
def sortKey (it : NItem) : Int :=
  match it.publishedAt with
  | none => 0
  | some s => (jsDateParse s).getD 0

/-- filterAndSort: keep the truthy, dated, in-window items and sort them
descending by publishedAt (stable, as the V8 Array.prototype.sort is). -/
def filterAndSort (nowMs : Int) (items : List NItem) : List NItem :=
  (items.filter (keepItem nowMs)).mergeSort fun a b => sortKey b ≤ sortKey a

/-! ### The aggregation handler (allSettled revision lines 1166-1203) -/

/-- SourceDescriptor registry entry (key, name, color; the adapter is
represented by its outcome at the call). -/
structure SourceDescr where
  key : List Char
  name : List Char
  color : List Char
deriving DecidableEq, Repr

/-- One SourceResult of the JSON payload. -/
structure SourceResult where
  key : List Char
  name : List Char
  color : List Char
  items : List NItem
  error : Option (List Char)
deriving DecidableEq, Repr

/-- The JSON payload of the news endpoint. -/
structure Payload where
  tz : List Char
  generatedAt : List Char
  sources : List SourceResult
deriving DecidableEq, Repr

/-- The HTTP outcome of the handler: a 200 with a payload, or the
500 of the catch block. -/
inductive HttpResp where
  | ok (p : Payload)
  | serverError (msg : List Char)
deriving DecidableEq, Repr

/-- One SourceResult assembled from a settled task: a fulfilled task
contributes its filtered and sorted items with a null error; a rejected
task contributes empty items and its reason string. -/
def buildSourceResult (nowMs : Int)
    (s : SourceDescr) (r : Except (List Char) (List NItem)) : SourceResult :=
  let list := match r with | Except.ok v => v | Except.error _ => []
  let err := match r with | Except.ok _ => none | Except.error e => some e
  { key := s.key, name := s.name, color := s.color,
    items := (filterAndSort nowMs list).map fun it =>
      { title := it.title, url := it.url, image := it.image,
        publishedAt := it.publishedAt },
    error := err }

/-- The news endpoint handler after Promise.allSettled: the selected
descriptors are zipped with their settled outcomes; the try block is
total, so the handler always responds 200 with the assembled payload. -/
def newsHandler (nowMs : Int)
    (pairs : List (SourceDescr × Except (List Char) (List NItem))) : HttpResp :=
  HttpResp.ok
    { tz := "America/Sao_Paulo".data,
      generatedAt := toIso nowMs,
      sources := pairs.map fun p => buildSourceResult nowMs p.1 p.2 }

/-- Output shape of one item of a SourceResult (the projection applied
inside the handler map). -/
def mkOut (it : NItem) : NItem :=
  { title := it.title, url := it.url, image := it.image,
    publishedAt := it.publishedAt }

/-! ### Helper form used by the round-trip theorems -/

/-- The canonical 24-character ISO rendering with explicit components (the
form toIso takes on instants of years 0-9999). -/
def isoCanon (y m d hh mi ss ms : Int) : List Char :=
  pad4C y ++ '-' :: pad2C m ++ '-' :: pad2C d ++ 'T' :: pad2C hh
    ++ ':' :: pad2C mi ++ ':' :: pad2C ss ++ '.' :: pad3C ms ++ ['Z']

/-- Facts about the validity guard: a successful validJs yields a value
within the JS Date range. -/
theorem validJs_bound {t u : Int} (h : validJs t = some u) :
    u.natAbs ≤ 8640000000000000 := by
  unfold validJs at h
  split at h
  · cases h
    assumption
  · cases h

/-- C1: when exactly one of the selected sources rejects, the handler
still answers 200 with one SourceResult per selected source; the
rejected source's entry carries a non-null error and empty items, and
every fulfilled source's entry carries its items and a null error. -/
theorem aggregation_failure_isolation (nowMs : Int)
    (pairs : List (SourceDescr × Except (List Char) (List NItem)))
    (j : Nat) (hj : j < pairs.length) (e : List Char)
    (herr : (pairs.get ⟨j, hj⟩).2 = Except.error e) :
    ∃ p, newsHandler nowMs pairs = HttpResp.ok p
      ∧ p.sources.length = pairs.length
      ∧ (∀ hj2 : j < p.sources.length,
          (p.sources.get ⟨j, hj2⟩).error = some e
          ∧ (p.sources.get ⟨j, hj2⟩).items = [])
      ∧ (∀ i, ∀ hi : i < p.sources.length, ∀ hi2 : i < pairs.length, ∀ d,
          (pairs.get ⟨i, hi2⟩).2 = Except.ok d →
          (p.sources.get ⟨i, hi⟩).error = none
          ∧ (p.sources.get ⟨i, hi⟩).items = (filterAndSort nowMs d).map mkOut) := by
  rw [List.get_eq_getElem] at herr
  refine ⟨_, rfl, by simp [newsHandler], ?_, ?_⟩
  · intro hj2
    constructor
    · simp only [newsHandler] at hj2 ⊢
      rw [List.get_eq_getElem, List.getElem_map]
      simp [buildSourceResult, herr]
    · simp only [newsHandler] at hj2 ⊢
      rw [List.get_eq_getElem, List.getElem_map]
      simp [buildSourceResult, herr, filterAndSort]
  · intro i hi hi2 d hok
    rw [List.get_eq_getElem] at hok
    constructor
    · simp only [newsHandler] at hi ⊢
      rw [List.get_eq_getElem, List.getElem_map]
      simp [buildSourceResult, hok]
    · simp only [newsHandler] at hi ⊢
      rw [List.get_eq_getElem, List.getElem_map]
      have hid : mkOut = id := rfl
      simp [buildSourceResult, hok, hid]

/-- Witness for aggregation_failure_isolation: two sources, the first
fulfilled with no items, the second rejected. -/
theorem aggregation_failure_isolation_witness :
    ∃ p, newsHandler 0
        [(⟨['a'], ['a'], ['a']⟩, Except.ok []),
         (⟨['b'], ['b'], ['b']⟩, Except.error ['x'])] = HttpResp.ok p
      ∧ p.sources.length = 2
      ∧ (∀ hj2 : 1 < p.sources.length,
          (p.sources.get ⟨1, hj2⟩).error = some ['x']
          ∧ (p.sources.get ⟨1, hj2⟩).items = [])
      ∧ (∀ i, ∀ hi : i < p.sources.length, ∀ hi2 : i <
          ([(⟨['a'], ['a'], ['a']⟩, Except.ok []),
            (⟨['b'], ['b'], ['b']⟩, Except.error ['x'])] :
            List (SourceDescr × Except (List Char) (List NItem))).length, ∀ d,
          (([(⟨['a'], ['a'], ['a']⟩, Except.ok []),
             (⟨['b'], ['b'], ['b']⟩, Except.error ['x'])] :
             List (SourceDescr × Except (List Char) (List NItem))).get ⟨i, hi2⟩).2
            = Except.ok d →
          (p.sources.get ⟨i, hi⟩).error = none
          ∧ (p.sources.get ⟨i, hi⟩).items = (filterAndSort 0 d).map mkOut) :=
  aggregation_failure_isolation 0
    [(⟨['a'], ['a'], ['a']⟩, Except.ok []),
     (⟨['b'], ['b'], ['b']⟩, Except.error ['x'])]
    1 (by decide) ['x'] rfl

/-- C2 counterexample: an undated item with non-empty title and url that
reaches the filter step is dropped, not retained (filterAndSort of the
allSettled revision requires a truthy publishedAt; in the earlier
revision withinLastTwoDays likewise returns false on null). -/
theorem undated_item_dropped_counterexample :
    filterAndSort 1762970400000
      [{ title := ['t'], url := ['u'], image := none, publishedAt := none }] = [] := by
  have hk : keepItem 1762970400000
      { title := ['t'], url := ['u'], image := none, publishedAt := none } = false := by
    decide
  simp [filterAndSort, hk]

/-- C2 amended: every item of a filterAndSort result has a truthy (in
particular non-null) publishedAt, so an undated item is always dropped
from the response rather than retained. -/
theorem undated_items_never_in_response (nowMs : Int) (items : List NItem)
    (it : NItem) (hmem : it ∈ filterAndSort nowMs items) :
    truthyStr it.publishedAt = true := by
  have h2 : it ∈ items.filter (keepItem nowMs) := by
    simpa [filterAndSort] using (List.mem_mergeSort).mp hmem
  have h3 := (List.mem_filter.mp h2).2
  simp only [keepItem, Bool.and_eq_true] at h3
  exact h3.1.2

/-- Witness for undated_items_never_in_response: a dated in-window item
kept by the filter on 2025-11-12. -/
theorem undated_items_never_in_response_witness :
    truthyStr (some "2025-11-11T17:00:00.000Z".data) = true :=
  undated_items_never_in_response 1762970400000
    [{ title := ['t'], url := ['u'], image := none,
       publishedAt := some "2025-11-11T17:00:00.000Z".data }]
    { title := ['t'], url := ['u'], image := none,
      publishedAt := some "2025-11-11T17:00:00.000Z".data }
    (by
      have hk : keepItem 1762970400000
          { title := ['t'], url := ['u'], image := none,
            publishedAt := some "2025-11-11T17:00:00.000Z".data } = true := by
        decide
      simp [filterAndSort, hk])

/-- C10: a null, undefined or empty-string argument makes parseDateTime
return null immediately through its falsy-argument guard, before any
dayjs call, so nothing can throw on these inputs. -/
theorem normalize_null_guard (nowMs : Int) :
    parseDateTimeMs nowMs none = Except.ok none
    ∧ parseDateTimeMs nowMs (some []) = Except.ok none :=
  ⟨rfl, rfl⟩

/-- C3: two getSourceData calls for one key within the TTL window invoke
the fetcher at most once; when the first call fetched, the second is a
pure cache hit returning the same data; a force call always invokes. -/
theorem cache_ttl_single_fetch (t0 t1 : Int) (cached : Option CacheEntry)
    (d0 : List NItem) (f1 f2 : Except (List Char) (List NItem))
    (hle : t0 ≤ t1) (hwin : t1 - t0 < CACHE_MS) :
    ((getSourceData t0 cached (Except.ok d0)).2.2
      && (getSourceData t1 (getSourceData t0 cached (Except.ok d0)).2.1 f1).2.2) = false
    ∧ ((getSourceData t0 cached (Except.ok d0)).2.2 = true →
        (getSourceData t1 (getSourceData t0 cached (Except.ok d0)).2.1 f1).2.2 = false
        ∧ (getSourceData t1 (getSourceData t0 cached (Except.ok d0)).2.1 f1).1
            = (getSourceData t0 cached (Except.ok d0)).1)
    ∧ (getSourceDataForce t1 cached f2).2.2 = true := by
  have hCM : CACHE_MS = 3600000 := rfl
  cases cached with
  | none =>
    refine ⟨?_, ?_, ?_⟩
    · simp only [getSourceData]
      have h1 : t1 - t0 < CACHE_MS := hwin
      simp [h1]
    · intro _
      simp only [getSourceData]
      simp [hwin]
    · cases f2 <;> simp [getSourceDataForce]
  | some c =>
    by_cases hfresh : t0 - c.atMs < CACHE_MS
    · refine ⟨?_, ?_, ?_⟩
      · simp [getSourceData, hfresh]
      · intro hinv
        exfalso
        simp [getSourceData, hfresh] at hinv
      · cases f2 <;> simp [getSourceDataForce]
    · refine ⟨?_, ?_, ?_⟩
      · simp [getSourceData, hfresh, hwin]
      · intro _
        simp [getSourceData, hfresh, hwin]
      · cases f2 <;> simp [getSourceDataForce]

/-- Witness for cache_ttl_single_fetch at a concrete state: empty cache,
calls at t0 = 0 and t1 = 1000. -/
theorem cache_ttl_single_fetch_witness :
    ((getSourceData 0 none (Except.ok [])).2.2
      && (getSourceData 1000 (getSourceData 0 none (Except.ok [])).2.1
            (Except.ok [])).2.2) = false
    ∧ ((getSourceData 0 none (Except.ok [])).2.2 = true →
        (getSourceData 1000 (getSourceData 0 none (Except.ok [])).2.1
            (Except.ok [])).2.2 = false
        ∧ (getSourceData 1000 (getSourceData 0 none (Except.ok [])).2.1
            (Except.ok [])).1 = (getSourceData 0 none (Except.ok [])).1)
    ∧ (getSourceDataForce 1000 none (Except.ok [])).2.2 = true :=
  cache_ttl_single_fetch 0 1000 none [] (Except.ok []) (Except.ok [])
    (by decide) (by decide)

/-- C8: when the fetcher throws, getSourceData leaves the cache entry
exactly as it was and propagates the error (shown here for every cache
state that actually invokes the fetcher); getSourceDataForce behaves the
same way; and the entry is preserved on fetcher failure unconditionally. -/
theorem cache_untouched_on_fetch_error (nowMs : Int) (cached : Option CacheEntry)
    (e : List Char) (hmiss : cacheMiss nowMs cached) :
    getSourceData nowMs cached (Except.error e) = (Except.error e, cached, true)
    ∧ getSourceDataForce nowMs cached (Except.error e) = (Except.error e, cached, true)
    ∧ (getSourceData nowMs cached (Except.error e)).2.1 = cached := by
  cases cached with
  | none => exact ⟨rfl, rfl, rfl⟩
  | some c =>
    have hstale : ¬ (nowMs - c.atMs < CACHE_MS) := by
      simp only [cacheMiss] at hmiss
      omega
    refine ⟨?_, rfl, ?_⟩ <;> simp [getSourceData, hstale]

/-- Witness for cache_untouched_on_fetch_error: a stale entry fetched at
time 0, queried at CACHE_MS. -/
theorem cache_untouched_on_fetch_error_witness :
    getSourceData 3600000 (some ⟨[], 0⟩) (Except.error ['x'])
        = (Except.error ['x'], some ⟨[], 0⟩, true)
    ∧ getSourceDataForce 3600000 (some ⟨[], 0⟩) (Except.error ['x'])
        = (Except.error ['x'], some ⟨[], 0⟩, true)
    ∧ (getSourceData 3600000 (some ⟨[], 0⟩) (Except.error ['x'])).2.1
        = some ⟨[], 0⟩ :=
  cache_untouched_on_fetch_error 3600000 (some ⟨[], 0⟩) ['x'] (by decide)

/-- C4 (evaluation at the failing input): the raw ISO input
2025-11-04T18:45:00-03:00 denotes 2025-11-04T21:45:00Z, but the parser
returns that instant shifted three hours later (the dayjs.tz call
re-anchors the UTC-parsed wall clock to America/Sao_Paulo instead of
honouring the explicit offset). -/
theorem iso_offset_reinterpreted :
    jsMakeUTC 2025 11 4 21 45 0 0 = 1762292700000
    ∧ parseDateTimeMs 0 (some "2025-11-04T18:45:00-03:00".data)
        = Except.ok (some (1762292700000 + 10800000))
    ∧ (1762292700000 + 10800000 : Int) ≠ 1762292700000 := by
  refine ⟨by decide, by decide, by decide⟩

/-- C5 (evaluation at the failing input): with the current instant
2025-11-12T18:00:00Z (a Sao Paulo afternoon of November 12), the item
instant 2025-11-11T01:00:00Z lies before the start of yesterday in
America/Sao_Paulo (2025-11-11T03:00:00Z), yet withinLastTwoDays accepts
it and filterAndSort retains it: re-parsing the stored UTC ISO string
through dayjs.tz shifts the comparison three hours, so the window is
effectively evaluated at UTC day boundaries, not Sao Paulo ones. -/
theorem window_shifted_at_boundaries :
    spStartOfYesterday 1762970400000 = 1762830000000
    ∧ (1762822800000 : Int) < 1762830000000
    ∧ withinLastTwoDays 1762970400000 (some (toIso 1762822800000)) = true
    ∧ filterAndSort 1762970400000
        [{ title := ['t'], url := ['u'], image := none,
           publishedAt := some (toIso 1762822800000) }]
        = [{ title := ['t'], url := ['u'], image := none,
             publishedAt := some (toIso 1762822800000) }] := by
  refine ⟨by decide, by decide, by decide, ?_⟩
  have hk : keepItem 1762970400000
      { title := ['t'], url := ['u'], image := none,
        publishedAt := some (toIso 1762822800000) } = true := by decide
  simp [filterAndSort, hk]

/-- C6 counterexample: normalizing 2025-11-04 yields the instant
2025-11-04T03:00:00Z (midnight in Sao Paulo); normalizing the ISO
string produced for that instant yields 2025-11-04T06:00:00Z, three
hours later, so the round trip is not an equal instant. -/
theorem roundtrip_shifts_counterexample :
    parseDateTimeMs 0 (some "2025-11-04".data) = Except.ok (some 1762225200000)
    ∧ parseDateTime 0 (some "2025-11-04".data)
        = Except.ok (some (toIso 1762225200000))
    ∧ parseDateTimeMs 0 (some (toIso 1762225200000))
        = Except.ok (some 1762236000000)
    ∧ (1762236000000 : Int) ≠ 1762225200000 := by
  refine ⟨by decide, by decide, by decide, by decide⟩
theorem isDigitC_dCh (k : Nat) : isDigitC (dCh k) = true := by
  have h : k % 10 < 10 := Nat.mod_lt _ (by norm_num)
  unfold dCh
  generalize hq : k % 10 = r at h ⊢
  interval_cases r <;> decide

theorem digitVal_dCh (k : Nat) : digitVal (dCh k) = k % 10 := by
  have h : k % 10 < 10 := Nat.mod_lt _ (by norm_num)
  unfold dCh
  generalize hq : k % 10 = r at h ⊢
  interval_cases r <;> decide

theorem digit_ne_lit {c x : Char} (hc : isDigitC c = true)
    (hx : isDigitC x = false) : (c = x) = False := by
  simp only [eq_iff_iff, iff_false]
  intro he
  rw [he] at hc
  rw [hc] at hx
  cases hx

theorem isoExtract24 (y1 y2 y3 y4 m1 m2 d1 d2 h1 h2 i1 i2 s1 s2 p1 p2 p3 : Char)
    (hy1 : isDigitC y1 = true) (hy2 : isDigitC y2 = true)
    (hy3 : isDigitC y3 = true) (hy4 : isDigitC y4 = true)
    (hm1 : isDigitC m1 = true) (hm2 : isDigitC m2 = true)
    (hd1 : isDigitC d1 = true) (hd2 : isDigitC d2 = true)
    (hh1 : isDigitC h1 = true) (hh2 : isDigitC h2 = true)
    (hi1 : isDigitC i1 = true) (hi2 : isDigitC i2 = true)
    (hs1 : isDigitC s1 = true) (hs2 : isDigitC s2 = true) :
    isoExtract [y1, y2, y3, y4, '-', m1, m2, '-', d1, d2, 'T',
                h1, h2, ':', i1, i2, ':', s1, s2, '.', p1, p2, p3, 'Z']
      = some [y1, y2, y3, y4, '-', m1, m2, '-', d1, d2, 'T',
              h1, h2, ':', i1, i2, ':', s1, s2] := by
  have e1 : isoDateAt [y1, y2, y3, y4, '-', m1, m2, '-', d1, d2, 'T',
      h1, h2, ':', i1, i2, ':', s1, s2, '.', p1, p2, p3, 'Z']
      = some ([y1, y2, y3, y4, '-', m1, m2, '-', d1, d2],
              ['T', h1, h2, ':', i1, i2, ':', s1, s2, '.', p1, p2, p3, 'Z']) := by
    simp [isoDateAt, hy1, hy2, hy3, hy4, hm1, hm2, hd1, hd2]
  have e2 : isoOffsetAt ['.', p1, p2, p3, 'Z'] = none := by
    simp [isoOffsetAt]
  have e3 : isoTimeAt ['T', h1, h2, ':', i1, i2, ':', s1, s2, '.', p1, p2, p3, 'Z']
      = some ['T', h1, h2, ':', i1, i2, ':', s1, s2] := by
    simp [isoTimeAt, hh1, hh2, hi1, hi2, hs1, hs2, e2]
  unfold isoExtract
  simp [e1, e3]


theorem regexParse19 (y1 y2 y3 y4 m1 m2 d1 d2 h1 h2 i1 i2 s1 s2 : Char)
    (hy1 : isDigitC y1 = true) (hy2 : isDigitC y2 = true)
    (hy3 : isDigitC y3 = true) (hy4 : isDigitC y4 = true)
    (hm1 : isDigitC m1 = true) (hm2 : isDigitC m2 = true)
    (hd1 : isDigitC d1 = true) (hd2 : isDigitC d2 = true)
    (hh1 : isDigitC h1 = true) (hh2 : isDigitC h2 = true)
    (hi1 : isDigitC i1 = true) (hi2 : isDigitC i2 = true)
    (hs1 : isDigitC s1 = true) (hs2 : isDigitC s2 = true) :
    regexParse [y1, y2, y3, y4, '-', m1, m2, '-', d1, d2, 'T',
                h1, h2, ':', i1, i2, ':', s1, s2]
      = some ⟨digitsVal [y1, y2, y3, y4],
              some (digitVal m1 * 10 + digitVal m2),
              some (digitVal d1 * 10 + digitVal d2),
              some (digitVal h1 * 10 + digitVal h2),
              some (digitVal i1 * 10 + digitVal i2),
              some (digitVal s1 * 10 + digitVal s2), none⟩ := by
  have e1 : takeDigits4 [y1, y2, y3, y4, '-', m1, m2, '-', d1, d2, 'T',
      h1, h2, ':', i1, i2, ':', s1, s2]
      = some (digitsVal [y1, y2, y3, y4],
          ['-', m1, m2, '-', d1, d2, 'T', h1, h2, ':', i1, i2, ':', s1, s2]) := by
    simp [takeDigits4, hy1, hy2, hy3, hy4]
  have e2 : skipSep ['-', m1, m2, '-', d1, d2, 'T', h1, h2, ':', i1, i2, ':', s1, s2]
      = [m1, m2, '-', d1, d2, 'T', h1, h2, ':', i1, i2, ':', s1, s2] := by
    simp [skipSep]
  have e3 : takeDigits0to2 [m1, m2, '-', d1, d2, 'T', h1, h2, ':', i1, i2, ':', s1, s2]
      = (some (digitVal m1 * 10 + digitVal m2),
         ['-', d1, d2, 'T', h1, h2, ':', i1, i2, ':', s1, s2]) := by
    simp [takeDigits0to2, hm1, hm2]
  have e4 : skipSep ['-', d1, d2, 'T', h1, h2, ':', i1, i2, ':', s1, s2]
      = [d1, d2, 'T', h1, h2, ':', i1, i2, ':', s1, s2] := by
    simp [skipSep]
  have e5 : takeDigits0to2 [d1, d2, 'T', h1, h2, ':', i1, i2, ':', s1, s2]
      = (some (digitVal d1 * 10 + digitVal d2),
         ['T', h1, h2, ':', i1, i2, ':', s1, s2]) := by
    simp [takeDigits0to2, hd1, hd2]
  have e6 : List.dropWhile (fun c => c = 'T' || c = 't' || isJsWs c)
        ['T', h1, h2, ':', i1, i2, ':', s1, s2]
      = [h1, h2, ':', i1, i2, ':', s1, s2] := by
    simp [List.dropWhile, isJsWs, digit_ne_lit hh1 (show isDigitC 'T' = false from rfl),
      digit_ne_lit hh1 (show isDigitC 't' = false from rfl),
      digit_ne_lit hh1 (show isDigitC ' ' = false from rfl),
      digit_ne_lit hh1 (show isDigitC '\t' = false from rfl),
      digit_ne_lit hh1 (show isDigitC '\n' = false from rfl),
      digit_ne_lit hh1 (show isDigitC '\r' = false from rfl)]
  have e7 : takeDigits0to2 [h1, h2, ':', i1, i2, ':', s1, s2]
      = (some (digitVal h1 * 10 + digitVal h2), [':', i1, i2, ':', s1, s2]) := by
    simp [takeDigits0to2, hh1, hh2]
  have e8 : skipColon [':', i1, i2, ':', s1, s2] = [i1, i2, ':', s1, s2] := by
    simp [skipColon]
  have e9 : takeDigits0to2 [i1, i2, ':', s1, s2]
      = (some (digitVal i1 * 10 + digitVal i2), [':', s1, s2]) := by
    simp [takeDigits0to2, hi1, hi2]
  have e10 : skipColon [':', s1, s2] = [s1, s2] := by
    simp [skipColon]
  have e11 : takeDigits0to2 [s1, s2] = (some (digitVal s1 * 10 + digitVal s2), []) := by
    simp [takeDigits0to2, hs1, hs2]
  unfold regexParse
  simp only [e1, e2, e3, e4, e5, e6, e7, e8, e9, e10, e11, skipDotColon,
    List.takeWhile, List.isEmpty, List.drop, if_true, List.length_nil]

theorem endsWithZ19 (y1 y2 y3 y4 m1 m2 d1 d2 h1 h2 i1 i2 s1 s2 : Char)
    (hs2 : isDigitC s2 = true) :
    endsWithZ [y1, y2, y3, y4, '-', m1, m2, '-', d1, d2, 'T',
               h1, h2, ':', i1, i2, ':', s1, s2] = false := by
  simp [endsWithZ, List.getLast?,
    digit_ne_lit hs2 (show isDigitC 'Z' = false from rfl),
    digit_ne_lit hs2 (show isDigitC 'z' = false from rfl)]


theorem daysFromCivil_bound (y m d : Int) (hy : 2020 ≤ y ∧ y ≤ 9999)
    (hm : 1 ≤ m ∧ m ≤ 12) (hd : 1 ≤ d ∧ d ≤ 31) :
    18000 ≤ daysFromCivil y m d ∧ daysFromCivil y m d ≤ 3100000 := by
  unfold daysFromCivil
  dsimp only
  split_ifs <;> omega

theorem dayjsTz19 (y1 y2 y3 y4 m1 m2 d1 d2 h1 h2 i1 i2 s1 s2 : Char)
    (hy1 : isDigitC y1 = true) (hy2 : isDigitC y2 = true)
    (hy3 : isDigitC y3 = true) (hy4 : isDigitC y4 = true)
    (hm1 : isDigitC m1 = true) (hm2 : isDigitC m2 = true)
    (hd1 : isDigitC d1 = true) (hd2 : isDigitC d2 = true)
    (hh1 : isDigitC h1 = true) (hh2 : isDigitC h2 = true)
    (hi1 : isDigitC i1 = true) (hi2 : isDigitC i2 = true)
    (hs1 : isDigitC s1 = true) (hs2 : isDigitC s2 = true)
    (Y M2 D2 H2 I2 S2 : Nat)
    (hYv : digitsVal [y1, y2, y3, y4] = Y)
    (hMv : digitVal m1 * 10 + digitVal m2 = M2)
    (hDv : digitVal d1 * 10 + digitVal d2 = D2)
    (hHv : digitVal h1 * 10 + digitVal h2 = H2)
    (hIv : digitVal i1 * 10 + digitVal i2 = I2)
    (hSv : digitVal s1 * 10 + digitVal s2 = S2)
    (hY : 2020 ≤ Y ∧ Y ≤ 9999) (hM : 1 ≤ M2 ∧ M2 ≤ 12) (hD : 1 ≤ D2 ∧ D2 ≤ 31)
    (hH : H2 ≤ 23) (hI : I2 ≤ 59) (hS : S2 ≤ 59) :
    dayjsTzString [y1, y2, y3, y4, '-', m1, m2, '-', d1, d2, 'T',
                   h1, h2, ':', i1, i2, ':', s1, s2]
      = Except.ok (jsMakeUTC (Y : Int) (M2 : Int) (D2 : Int) (H2 : Int) (I2 : Int)
                (S2 : Int) 0 + 10800000) := by
  have hdb := daysFromCivil_bound (Y : Int) (M2 : Int) (D2 : Int)
    (by omega) (by omega) (by omega)
  have hcomp : jsUtcFromComps ⟨Y, some M2, some D2, some H2, some I2, some S2, none⟩
      = jsMakeUTC (Y : Int) (M2 : Int) (D2 : Int) (H2 : Int) (I2 : Int) (S2 : Int) 0 := by
    unfold jsUtcFromComps epochUTCms jsMakeUTC
    dsimp only [Option.getD]
    have c1 : ¬ (0 ≤ (Y : Int) ∧ (Y : Int) ≤ 99) := by omega
    rw [if_neg c1]
    have c2 : ((M2 : Int) - 1) / 12 = 0 := by omega
    have c3 : ((M2 : Int) - 1) % 12 = (M2 : Int) - 1 := by omega
    rw [c2, c3]
    have c4 : ((M2 : Int) - 1 + 1) = (M2 : Int) := by ring
    have c5 : ((Y : Int) + 0) = (Y : Int) := by ring
    rw [c4, c5]
    push_cast
    ring
  have hbound : (jsMakeUTC (Y : Int) (M2 : Int) (D2 : Int) (H2 : Int) (I2 : Int)
      (S2 : Int) 0).natAbs ≤ 8640000000000000 := by
    unfold jsMakeUTC
    omega
  have hbound2 : (jsMakeUTC (Y : Int) (M2 : Int) (D2 : Int) (H2 : Int) (I2 : Int)
      (S2 : Int) 0 + 10800000).natAbs ≤ 8640000000000000 := by
    unfold jsMakeUTC at *
    omega
  unfold dayjsTzString dayjsUtcParse
  rw [endsWithZ19 _ _ _ _ _ _ _ _ _ _ _ _ _ _ hs2]
  simp only [Bool.false_eq_true, if_false]
  rw [regexParse19 _ _ _ _ _ _ _ _ _ _ _ _ _ _ hy1 hy2 hy3 hy4 hm1 hm2 hd1 hd2
    hh1 hh2 hi1 hi2 hs1 hs2]
  simp only [hYv, hMv, hDv, hHv, hIv, hSv, hcomp]
  unfold validJs
  rw [if_pos hbound]
  simp only []
  rw [show SP_SHIFT_MS = (10800000 : Int) from rfl]
  rw [if_pos hbound2]


theorem isoCanon_reparse (nowMs y m d hh mi ss ms : Int)
    (hy : 2020 ≤ y ∧ y ≤ 9999) (hm : 1 ≤ m ∧ m ≤ 12) (hd : 1 ≤ d ∧ d ≤ 31)
    (hhh : 0 ≤ hh ∧ hh ≤ 23) (hmi : 0 ≤ mi ∧ mi ≤ 59) (hss : 0 ≤ ss ∧ ss ≤ 59)
    (hms : 0 ≤ ms ∧ ms ≤ 999) :
    parseDateTimeMs nowMs (some (isoCanon y m d hh mi ss ms))
      = Except.ok (some (jsMakeUTC y m d hh mi ss 0 + 10800000)) := by
  have hlist : isoCanon y m d hh mi ss ms
      = [dCh (y.toNat / 1000), dCh (y.toNat / 100), dCh (y.toNat / 10), dCh y.toNat,
         '-', dCh (m.toNat / 10), dCh m.toNat, '-', dCh (d.toNat / 10), dCh d.toNat,
         'T', dCh (hh.toNat / 10), dCh hh.toNat, ':', dCh (mi.toNat / 10), dCh mi.toNat,
         ':', dCh (ss.toNat / 10), dCh ss.toNat, '.',
         dCh (ms.toNat / 100), dCh (ms.toNat / 10), dCh ms.toNat, 'Z'] := by
    simp [isoCanon, pad4C, pad2C, pad3C]
  have hYv : digitsVal [dCh (y.toNat / 1000), dCh (y.toNat / 100),
      dCh (y.toNat / 10), dCh y.toNat] = y.toNat := by
    have hb : y.toNat ≤ 9999 := by omega
    simp [digitsVal, digitVal_dCh]
    omega
  have hMv : digitVal (dCh (m.toNat / 10)) * 10 + digitVal (dCh m.toNat) = m.toNat := by
    have hb : m.toNat ≤ 12 := by omega
    simp [digitVal_dCh]
    omega
  have hDv : digitVal (dCh (d.toNat / 10)) * 10 + digitVal (dCh d.toNat) = d.toNat := by
    have hb : d.toNat ≤ 31 := by omega
    simp [digitVal_dCh]
    omega
  have hHv : digitVal (dCh (hh.toNat / 10)) * 10 + digitVal (dCh hh.toNat) = hh.toNat := by
    have hb : hh.toNat ≤ 23 := by omega
    simp [digitVal_dCh]
    omega
  have hIv : digitVal (dCh (mi.toNat / 10)) * 10 + digitVal (dCh mi.toNat) = mi.toNat := by
    have hb : mi.toNat ≤ 59 := by omega
    simp [digitVal_dCh]
    omega
  have hSv : digitVal (dCh (ss.toNat / 10)) * 10 + digitVal (dCh ss.toNat) = ss.toNat := by
    have hb : ss.toNat ≤ 59 := by omega
    simp [digitVal_dCh]
    omega
  have hext := isoExtract24 (dCh (y.toNat / 1000)) (dCh (y.toNat / 100))
    (dCh (y.toNat / 10)) (dCh y.toNat) (dCh (m.toNat / 10)) (dCh m.toNat)
    (dCh (d.toNat / 10)) (dCh d.toNat) (dCh (hh.toNat / 10)) (dCh hh.toNat)
    (dCh (mi.toNat / 10)) (dCh mi.toNat) (dCh (ss.toNat / 10)) (dCh ss.toNat)
    (dCh (ms.toNat / 100)) (dCh (ms.toNat / 10)) (dCh ms.toNat)
    (isDigitC_dCh _) (isDigitC_dCh _) (isDigitC_dCh _) (isDigitC_dCh _)
    (isDigitC_dCh _) (isDigitC_dCh _) (isDigitC_dCh _) (isDigitC_dCh _)
    (isDigitC_dCh _) (isDigitC_dCh _) (isDigitC_dCh _) (isDigitC_dCh _)
    (isDigitC_dCh _) (isDigitC_dCh _)
  have htz := dayjsTz19 (dCh (y.toNat / 1000)) (dCh (y.toNat / 100))
    (dCh (y.toNat / 10)) (dCh y.toNat) (dCh (m.toNat / 10)) (dCh m.toNat)
    (dCh (d.toNat / 10)) (dCh d.toNat) (dCh (hh.toNat / 10)) (dCh hh.toNat)
    (dCh (mi.toNat / 10)) (dCh mi.toNat) (dCh (ss.toNat / 10)) (dCh ss.toNat)
    (isDigitC_dCh _) (isDigitC_dCh _) (isDigitC_dCh _) (isDigitC_dCh _)
    (isDigitC_dCh _) (isDigitC_dCh _) (isDigitC_dCh _) (isDigitC_dCh _)
    (isDigitC_dCh _) (isDigitC_dCh _) (isDigitC_dCh _) (isDigitC_dCh _)
    (isDigitC_dCh _) (isDigitC_dCh _)
    y.toNat m.toNat d.toNat hh.toNat mi.toNat ss.toNat
    hYv hMv hDv hHv hIv hSv
    (by omega) (by omega) (by omega) (by omega) (by omega) (by omega)
  have hcasts : ((y.toNat : Int)) = y ∧ ((m.toNat : Int)) = m ∧ ((d.toNat : Int)) = d
      ∧ ((hh.toNat : Int)) = hh ∧ ((mi.toNat : Int)) = mi ∧ ((ss.toNat : Int)) = ss := by
    omega
  rw [hcasts.1, hcasts.2.1, hcasts.2.2.1, hcasts.2.2.2.1, hcasts.2.2.2.2.1,
    hcasts.2.2.2.2.2] at htz
  rw [hlist]
  unfold parseDateTimeMs
  simp only [List.isEmpty, Bool.false_eq_true, if_false, hext, htz]


/-- C6 amended: re-normalizing the ISO string produced by a successful
normalization does not return an equal instant; it returns the instant
three hours later with the millisecond field dropped, because the
produced Z-terminated string is re-anchored to the Sao Paulo wall clock
by the dayjs.tz string re-parse and the ISO extraction drops
milliseconds.  The calendar decomposition of the first result is
carried as hypotheses. -/
theorem roundtrip_shifts_three_hours (nowMs t y m d hh mi ss ms : Int)
    (raw : Option (List Char))
    (hsucc : parseDateTimeMs nowMs raw = Except.ok (some t))
    (hciv : civilFromDays (t / 86400000) = (y, m, d))
    (hclk : t % 86400000 = hh * 3600000 + mi * 60000 + ss * 1000 + ms)
    (hmk : jsMakeUTC y m d hh mi ss ms = t)
    (hy : 2020 ≤ y ∧ y ≤ 9999) (hm : 1 ≤ m ∧ m ≤ 12) (hd : 1 ≤ d ∧ d ≤ 31)
    (hhh : 0 ≤ hh ∧ hh ≤ 23) (hmi : 0 ≤ mi ∧ mi ≤ 59) (hss : 0 ≤ ss ∧ ss ≤ 59)
    (hms : 0 ≤ ms ∧ ms ≤ 999) :
    parseDateTime nowMs raw = Except.ok (some (toIso t))
      ∧ parseDateTimeMs nowMs (some (toIso t))
          = Except.ok (some (t - ms + SP_SHIFT_MS))
      ∧ t - ms + SP_SHIFT_MS ≠ t := by
  refine ⟨?_, ?_, ?_⟩
  · unfold parseDateTime
    rw [hsucc]
    rfl
  · have e1 : t % 86400000 / 3600000 = hh := by omega
    have e2 : t % 86400000 / 60000 % 60 = mi := by omega
    have e3 : t % 86400000 / 1000 % 60 = ss := by omega
    have e4 : t % 86400000 % 1000 = ms := by omega
    have hcanon : toIso t = isoCanon y m d hh mi ss ms := by
      simp only [toIso, isoCanon, hciv, e1, e2, e3, e4]
      rw [if_pos (by omega : (0:Int) ≤ y ∧ y ≤ 9999)]
      simp [List.append_assoc]
    rw [hcanon]
    rw [isoCanon_reparse nowMs y m d hh mi ss ms hy hm hd hhh hmi hss hms]
    have hms0 : jsMakeUTC y m d hh mi ss 0 = t - ms := by
      unfold jsMakeUTC at hmk ⊢
      omega
    rw [hms0]
    rfl
  · have hsp : SP_SHIFT_MS = 10800000 := rfl
    omega

/-- Witness for the round-trip shift at the concrete input 2025-11-04. -/
theorem roundtrip_shifts_three_hours_witness :
    parseDateTimeMs 0 (some ("2025-11-04".data)) = Except.ok (some 1762225200000) ∧
    (parseDateTime 0 (some ("2025-11-04".data))
        = Except.ok (some (toIso 1762225200000))
      ∧ parseDateTimeMs 0 (some (toIso 1762225200000))
          = Except.ok (some (1762225200000 - 0 + SP_SHIFT_MS))
      ∧ (1762225200000 : Int) - 0 + SP_SHIFT_MS ≠ 1762225200000) :=
  ⟨by decide, roundtrip_shifts_three_hours 0 1762225200000 2025 11 4 3 0 0 0
      (some ("2025-11-04".data)) (by decide) (by decide) (by decide) (by decide)
      (by decide) (by decide) (by decide) (by decide) (by decide) (by decide)
      (by decide)⟩

/-- C9 (evaluation at the failing input): the normalizer is not total.
On the unparseable input em breve the ISO regex finds no match and the
first numeric custom format (DD/MM/YYYY HH:mm) fails at its very first
two-digit token, so the dayjs.tz call receives an Invalid Date and
throws RangeError out of parseDateTime instead of returning null. -/
theorem normalize_throws_on_unparseable :
    parseDateTimeMs 0 (some ("em breve".data)) = Except.error JsError.rangeError
    ∧ parseDateTime 0 (some ("em breve".data)) = Except.error JsError.rangeError := by
  refine ⟨by decide, by decide⟩

/-- C7 (evaluation at the failing input): on the canonical named-month
input 4 de novembro de 2025 the normalizer does not return noon Sao
Paulo: the ISO regex finds no match, the first numeric custom format
(DD/MM/YYYY HH:mm) binds its DD and MM tokens to the digit pairs 20 and
25 inside the year and then fails on the four-digit YYYY token, and the
resulting Invalid Date makes the dayjs.tz call throw RangeError out of
parseDateTime before parseNamedMonth is ever reached — even though
parseNamedMonth itself, applied to the same cleaned input, would have
produced exactly noon Sao Paulo (2025-11-04T15:00:00Z). -/
theorem named_month_input_throws :
    parseDateTimeMs 0 (some ("4 de novembro de 2025".data))
        = Except.error JsError.rangeError
    ∧ parseNamedMonth (cleanedOf ("4 de novembro de 2025".data))
        = Except.ok (some 1762268400000)
    ∧ toIso 1762268400000 = "2025-11-04T15:00:00.000Z".data := by
  refine ⟨by decide, by decide, by decide⟩

end Newscacd
